import Mathlib

/-!
Verification of the Chirpy web API (Go) against its natural-language
specification.  The Go source is shallowly embedded: Go strings are lists
of characters (runes), `len` on a Go string is its UTF-8 byte count,
handlers become pure functions from their request data and the outcome of
their I/O calls (body read, JSON parse, database call) to an HTTP response
and the updated stored state.
-/

/-- A Go string, modelled as its list of runes. -/
abbrev GoStr := List Char

/-- Go `len(s)` on a string counts UTF-8 bytes; `Char.utf8Size` is the
UTF-8 byte count of one rune. -/
def goLen (s : GoStr) : Nat := (s.map Char.utf8Size).sum

/-- Go `unicode.ToLower`, the simple Unicode case mapping, as it bears on
comparisons against the ASCII denylist.  The simple case mapping sends to an
ASCII letter exactly the runes 'A'-'Z' (down by 32, the ASCII mapping of
`Char.toLower`), U+0130 LATIN CAPITAL LETTER I WITH DOT ABOVE (to 'i') and
U+212A KELVIN SIGN (to 'k'); every other rune is either fixed or sent to
another non-ASCII rune, so modelling those as fixed cannot change any
comparison with an ASCII word. -/
def goToLower (c : Char) : Char :=
  if c = Char.ofNat 0x0130 then 'i'
  else if c = Char.ofNat 0x212A then 'k'
  else Char.toLower c

/-- Go `strings.ToLower`: the rune-wise case mapping. -/
def lowerStr (s : GoStr) : GoStr := s.map goToLower

/-- The fixed denylist `profaneWords` from the source. -/
def profaneWords : List GoStr :=
  ["kerfuffle".toList, "sharbert".toList, "fornax".toList]

/-- The replacement mask written by the handlers. -/
def mask : GoStr := "****".toList

/-- Go `strings.Split(s, " ")` with a single-character separator: splits at
every space, keeping empty fields. -/
def splitSp : GoStr → List GoStr
  | [] => [[]]
  | c :: rest =>
    if c = ' ' then [] :: splitSp rest
    else
      match splitSp rest with
      | [] => [[c]]
      | w :: ws => (c :: w) :: ws

/-- Go `strings.Join(ws, " ")`. -/
def joinSp : List GoStr → GoStr
  | [] => []
  | [w] => w
  | w :: ws => w ++ ' ' :: joinSp ws

/-- The inner loop of the cleaning code: iterate over the denylist and stop
at the first entry equal to the lower-cased word. -/
def matchProfane (wordLower : GoStr) : List GoStr → Bool
  | [] => false
  | p :: ps => if wordLower = p then true else matchProfane wordLower ps

/-- One iteration of the cleaning loop body: lower-case the word for
comparison and replace it by the mask when the denylist matches. -/
def cleanWord (w : GoStr) : GoStr :=
  if matchProfane (lowerStr w) profaneWords then mask else w

/-- The cleaning transform shared by `validateChirpHandler` and
`createChirpHandler`: split on single spaces, mask denylisted words,
rejoin with single spaces. -/
def cleanChirp (s : GoStr) : GoStr := joinSp ((splitSp s).map cleanWord)

/-- The reference cleaning function exactly as the spec words it: split on
single spaces, lower-case each token, replace tokens that exactly match a
denylist word with the mask, rejoin with single spaces. -/
def specCleanLiteral (s : GoStr) : GoStr :=
  List.intercalate [' '] ((s.splitOn ' ').map fun w =>
    let lw := lowerStr w
    if lw ∈ profaneWords then mask else lw)

/-- The reference cleaning function with the lower-casing used only for the
denylist comparison, non-matching tokens kept in their original case. -/
def specCleanCompareLower (s : GoStr) : GoStr :=
  List.intercalate [' '] ((s.splitOn ' ').map fun w =>
    if lowerStr w ∈ profaneWords then mask else w)

/-- The body kind of an HTTP response written by a handler. -/
inductive RespBody where
  | empty
  | errJson (msg : GoStr)
  | chirpJson (body : GoStr)
  | userJson (email : GoStr)
  deriving DecidableEq, Repr

/-- An HTTP response: status code and body. -/
structure Response where
  status : Nat
  body : RespBody
  deriving DecidableEq, Repr

/-- The parsed chirp-creation request payload (the UUID is abstracted to a
number). -/
structure ChirpCreateReq where
  body : GoStr
  userID : Nat
  deriving DecidableEq, Repr

/-- The handler for POST /validate_chirp, from `validateChirpHandler`:
method check, body read, JSON parse, length check, cleaning.  The read and
parse outcomes are inputs: `readOk = false` models an `io.ReadAll` error and
`parsed = none` models a `json.Unmarshal` error. -/
def validateChirpHandler (isPost readOk : Bool) (parsed : Option GoStr) :
    Response :=
  if !isPost then ⟨405, .empty⟩
  else if !readOk then ⟨500, .errJson "Failed to read request".toList⟩
  else
    match parsed with
    | none => ⟨400, .errJson "Invalid JSON".toList⟩
    | some body =>
      if 140 < goLen body then ⟨400, .errJson "Chirp is too long".toList⟩
      else ⟨200, .chirpJson (cleanChirp body)⟩

/-- The handler for POST /api/chirps, from `createChirpHandler`.  `dbOk`
models the outcome of the CreateChirp database call and `chirps` the stored
chirp bodies; the pair returned is the response and the new stored state. -/
def createChirpHandler (isPost readOk : Bool) (parsed : Option ChirpCreateReq)
    (dbOk : Bool) (chirps : List GoStr) : Response × List GoStr :=
  if !isPost then (⟨405, .empty⟩, chirps)
  else if !readOk then (⟨500, .errJson "Failed to read request".toList⟩, chirps)
  else
    match parsed with
    | none => (⟨400, .errJson "Invalid JSON".toList⟩, chirps)
    | some req =>
      if 140 < goLen req.body then
        (⟨400, .errJson "Chirp is too long".toList⟩, chirps)
      else
        let cleaned := cleanChirp req.body
        if !dbOk then (⟨500, .errJson "Failed to create chirp".toList⟩, chirps)
        else (⟨201, .chirpJson cleaned⟩, chirps ++ [cleaned])

/-- The handler for POST /api/users, from `createUserHandler`; `parsed` is
the email field of the decoded request and `users` the stored emails. -/
def createUserHandler (isPost readOk : Bool) (parsed : Option GoStr)
    (dbOk : Bool) (users : List GoStr) : Response × List GoStr :=
  if !isPost then (⟨405, .empty⟩, users)
  else if !readOk then (⟨500, .errJson "Failed to read request".toList⟩, users)
  else
    match parsed with
    | none => (⟨400, .errJson "Invalid JSON".toList⟩, users)
    | some email =>
      if !dbOk then (⟨500, .errJson "Failed to create user".toList⟩, users)
      else (⟨201, .userJson email⟩, users ++ [email])

/-- The mutable server state touched by the reset handler: the hit counter
and the users table. -/
structure ServerState where
  fileserverHits : Int
  users : List GoStr
  deriving DecidableEq, Repr

/-- The handler for POST /admin/reset, from `resetHandler`: outside dev mode
it answers 403; in dev mode it stores 0 into the counter and then runs
DeleteAllUsers, whose outcome is `deleteOk`.  A failed DELETE statement is
atomic, so the users table is unchanged on failure. -/
def resetHandler (platform : GoStr) (isPost deleteOk : Bool)
    (s : ServerState) : Response × ServerState :=
  if !isPost then (⟨405, .empty⟩, s)
  else if platform ≠ "dev".toList then
    (⟨403, .errJson "Reset endpoint only available in dev mode".toList⟩, s)
  else
    let s1 : ServerState := { s with fileserverHits := 0 }
    if !deleteOk then (⟨500, .errJson "Failed to delete users".toList⟩, s1)
    else (⟨200, .empty⟩, { s1 with users := [] })

/-- One shared-state step of `middlewareMetricsInc`: each static-file
request performs exactly one atomic `fileserverHits.Add(1)`, so an
interleaving of concurrent requests is a sequence of such steps. -/
inductive MWStep where
  | inc
  deriving DecidableEq, Repr

/-- Reduces an integer to the range of Go's int32, the type of
`fileserverHits` (an `atomic.Int32`): two's-complement wrap-around at
2^31 = 2147483648. -/
def wrap32 (x : Int) : Int := (x + 2147483648) % 4294967296 - 2147483648

/-- Runs a schedule of middleware steps against the hit counter; each step
is one atomic int32 `Add(1)`, wrapping as the hardware type does. -/
def runSteps : Int → List MWStep → Int
  | c, [] => c
  | c, .inc :: rest => runSteps (wrap32 (c + 1)) rest

/-- Bool test for a JSON error body, used to state the error-class claims
decidably. -/
def RespBody.isErr : RespBody → Bool
  | .errJson _ => true
  | _ => false

/-- Bool test for an over-length chirp-creation payload. -/
def chirpTooLong : Option ChirpCreateReq → Bool
  | none => false
  | some req => 140 < goLen req.body

/-- Claim C8 exactly as stated: every error response of the chirp- or
user-creation handler is either a 4xx with a JSON error body caused by
malformed JSON or an over-length chirp body, or a 500 caused by a database
failure. -/
def errorTwoClassesClaim : Prop :=
  (∀ (isPost readOk : Bool) (parsed : Option ChirpCreateReq) (dbOk : Bool)
      (chirps : List GoStr),
    400 ≤ (createChirpHandler isPost readOk parsed dbOk chirps).1.status →
      ((parsed = none ∨ chirpTooLong parsed = true) ∧
        (createChirpHandler isPost readOk parsed dbOk chirps).1.status < 500 ∧
        (createChirpHandler isPost readOk parsed dbOk chirps).1.body.isErr = true) ∨
      (dbOk = false ∧
        (createChirpHandler isPost readOk parsed dbOk chirps).1.status = 500)) ∧
  (∀ (isPost readOk : Bool) (parsed : Option GoStr) (dbOk : Bool)
      (users : List GoStr),
    400 ≤ (createUserHandler isPost readOk parsed dbOk users).1.status →
      (parsed = none ∧
        (createUserHandler isPost readOk parsed dbOk users).1.status < 500 ∧
        (createUserHandler isPost readOk parsed dbOk users).1.body.isErr = true) ∨
      (dbOk = false ∧
        (createUserHandler isPost readOk parsed dbOk users).1.status = 500))

example : cleanChirp "Hello KERFUFFLE world".toList = "Hello **** world".toList := by decide
example : cleanChirp "akerfuffle".toList = "akerfuffle".toList := by decide
example : cleanChirp "Hello".toList = "Hello".toList := by decide
example : goLen "abc".toList = 3 := by decide
example : cleanChirp (Char.ofNat 0x212A :: "erfuffle".toList) = mask := by decide
example : goToLower (Char.ofNat 0x212A) = 'k' := by decide

theorem splitSp_ne_nil (s : GoStr) : splitSp s ≠ [] := by
  induction s with
  | nil => simp [splitSp]
  | cons c rest ih =>
    simp only [splitSp]
    split
    · simp
    · cases h : splitSp rest with
      | nil => simp
      | cons w ws => simp

theorem joinSp_splitSp (s : GoStr) : joinSp (splitSp s) = s := by
  induction s with
  | nil => rfl
  | cons c rest ih =>
    simp only [splitSp]
    split
    · subst_vars
      cases h : splitSp rest with
      | nil => exact absurd h (splitSp_ne_nil rest)
      | cons w ws =>
        rw [h] at ih
        simpa [joinSp] using ih
    · cases h : splitSp rest with
      | nil => exact absurd h (splitSp_ne_nil rest)
      | cons w ws =>
        rw [h] at ih
        cases ws with
        | nil => simpa [joinSp] using ih
        | cons w2 ws2 => simpa [joinSp] using ih

theorem not_mem_of_mem_splitSp {s : GoStr} {w : GoStr} (hw : w ∈ splitSp s) :
    ' ' ∉ w := by
  induction s generalizing w with
  | nil =>
    simp only [splitSp, List.mem_singleton] at hw
    simp [hw]
  | cons c rest ih =>
    simp only [splitSp] at hw
    split at hw
    · rcases List.mem_cons.mp hw with h | h
      · simp [h]
      · exact ih h
    · rename_i hc
      cases h : splitSp rest with
      | nil => exact absurd h (splitSp_ne_nil rest)
      | cons v vs =>
        rw [h] at hw
        rcases List.mem_cons.mp hw with h2 | h2
        · subst h2
          intro hmem
          rcases List.mem_cons.mp hmem with h3 | h3
          · exact absurd h3.symm hc
          · exact ih (h ▸ List.mem_cons_self v vs) h3
        · exact ih (h ▸ List.mem_cons_of_mem v h2)

theorem splitSp_no_space {w : GoStr} (hw : ' ' ∉ w) : splitSp w = [w] := by
  induction w with
  | nil => rfl
  | cons c rest ih =>
    have hc : ¬c = ' ' := fun h => hw (h ▸ List.mem_cons_self c rest)
    have hrest : ' ' ∉ rest := fun h => hw (List.mem_cons_of_mem c h)
    simp only [splitSp, if_neg hc, ih hrest]

theorem splitSp_append_space {w : GoStr} (t : GoStr) (hw : ' ' ∉ w) :
    splitSp (w ++ ' ' :: t) = w :: splitSp t := by
  induction w with
  | nil => simp [splitSp]
  | cons c rest ih =>
    have hc : ¬c = ' ' := fun h => hw (h ▸ List.mem_cons_self c rest)
    have hrest : ' ' ∉ rest := fun h => hw (List.mem_cons_of_mem c h)
    have := ih hrest
    simp only [List.cons_append, splitSp, if_neg hc, List.append_eq, this]

theorem splitSp_joinSp {ws : List GoStr} (hne : ws ≠ [])
    (hsp : ∀ w ∈ ws, ' ' ∉ w) : splitSp (joinSp ws) = ws := by
  induction ws with
  | nil => exact absurd rfl hne
  | cons w rest ih =>
    cases rest with
    | nil =>
      simp only [joinSp]
      exact splitSp_no_space (hsp w (List.mem_cons_self w []))
    | cons w2 ws2 =>
      have hw : ' ' ∉ w := hsp w (List.mem_cons_self w _)
      have hrest : ∀ v ∈ w2 :: ws2, ' ' ∉ v := fun v hv =>
        hsp v (List.mem_cons_of_mem w hv)
      have hjoin := ih (by simp) hrest
      simp only [joinSp, splitSp_append_space _ hw, hjoin]

theorem matchProfane_eq_true_iff (x : GoStr) (ps : List GoStr) :
    matchProfane x ps = true ↔ x ∈ ps := by
  induction ps with
  | nil => simp [matchProfane]
  | cons p ps ih =>
    simp only [matchProfane, List.mem_cons]
    split
    · simp [*]
    · simp [ih, *]

theorem cleanWord_eq_ite (w : GoStr) :
    cleanWord w = if lowerStr w ∈ profaneWords then mask else w := by
  rw [cleanWord]
  by_cases h : lowerStr w ∈ profaneWords
  · rw [if_pos ((matchProfane_eq_true_iff _ _).mpr h), if_pos h]
  · rw [if_neg (fun hb => h ((matchProfane_eq_true_iff _ _).mp hb)), if_neg h]

theorem cleanWord_no_space {w : GoStr} (hw : ' ' ∉ w) : ' ' ∉ cleanWord w := by
  rw [cleanWord]
  split
  · decide
  · exact hw

theorem length_le_goLen (s : GoStr) : s.length ≤ goLen s := by
  induction s with
  | nil => simp [goLen]
  | cons c rest ih =>
    simp only [goLen, List.map_cons, List.sum_cons, List.length_cons]
    have := Char.utf8Size_pos c
    simp only [goLen] at ih
    omega

theorem goLen_append (a b : GoStr) : goLen (a ++ b) = goLen a + goLen b := by
  simp [goLen]

theorem goLen_cons (c : Char) (s : GoStr) :
    goLen (c :: s) = c.utf8Size + goLen s := by
  simp [goLen]

theorem goLen_cleanWord_le (w : GoStr) : goLen (cleanWord w) ≤ goLen w := by
  rw [cleanWord]
  split
  · rename_i h
    have hmem : lowerStr w ∈ profaneWords := (matchProfane_eq_true_iff _ _).mp h
    have hlen : 6 ≤ (lowerStr w).length := by
      simp only [profaneWords, List.mem_cons, List.not_mem_nil, or_false] at hmem
      rcases hmem with h1 | h1 | h1 <;> rw [h1] <;> decide
    have hlw : (lowerStr w).length = w.length := by simp [lowerStr]
    have hle := length_le_goLen w
    have hmask : goLen mask = 4 := by decide
    omega
  · exact Nat.le_refl _

theorem goLen_joinSp_map_le (f : GoStr → GoStr)
    (hf : ∀ w, goLen (f w) ≤ goLen w) (ws : List GoStr) :
    goLen (joinSp (ws.map f)) ≤ goLen (joinSp ws) := by
  induction ws with
  | nil => simp [joinSp]
  | cons w rest ih =>
    cases rest with
    | nil => simpa [joinSp] using hf w
    | cons w2 ws2 =>
      have h1 := hf w
      simp only [List.map_cons, joinSp, goLen_append, goLen_cons] at ih ⊢
      omega

theorem goLen_cleanChirp_le (s : GoStr) : goLen (cleanChirp s) ≤ goLen s := by
  have h := goLen_joinSp_map_le cleanWord goLen_cleanWord_le (splitSp s)
  rw [joinSp_splitSp s] at h
  exact h

theorem wrap32_wrap32_add (x y : Int) :
    wrap32 (wrap32 x + y) = wrap32 (x + y) := by
  unfold wrap32
  omega

theorem runSteps_eq_wrap (sched : List MWStep) (c : Int) :
    runSteps (wrap32 c) sched = wrap32 (c + sched.length) := by
  induction sched generalizing c with
  | nil => simp [runSteps]
  | cons step rest ih =>
    cases step
    simp only [runSteps]
    rw [wrap32_wrap32_add, ih (c + 1), List.length_cons]
    congr 1
    push_cast
    ring

theorem splitSp_eq_splitOn (s : GoStr) : splitSp s = s.splitOn ' ' := by
  induction s with
  | nil => simp [splitSp]
  | cons c rest ih =>
    simp only [List.splitOn] at ih ⊢
    rw [List.splitOnP_cons]
    simp only [splitSp]
    split
    · rename_i hc
      rw [if_pos (by simpa using hc), ih]
    · rename_i hc
      rw [if_neg (by simpa using hc), ← ih]
      cases h : splitSp rest with
      | nil => exact absurd h (splitSp_ne_nil rest)
      | cons w ws => simp [List.modifyHead]

theorem joinSp_eq_intercalate (ws : List GoStr) :
    joinSp ws = List.intercalate [' '] ws := by
  induction ws with
  | nil => simp [joinSp, List.intercalate]
  | cons w rest ih =>
    cases rest with
    | nil => simp [joinSp, List.intercalate]
    | cons w2 ws2 =>
      simp only [joinSp, List.intercalate] at ih ⊢
      simp only [List.intersperse, List.flatten, ih]
      simp

/-- C1: for every input, splitting the cleaned output on single spaces gives
exactly the input's tokens with each token that case-insensitively equals a
denylist word replaced by the mask and every other token (including tokens
merely containing a denylist word as a substring) unchanged. -/
theorem c1_denylist_whole_word_masking (s : GoStr) :
    splitSp (cleanChirp s) =
      (splitSp s).map fun w =>
        if lowerStr w ∈ profaneWords then mask else w := by
  have hmap : (splitSp s).map cleanWord =
      (splitSp s).map (fun w => if lowerStr w ∈ profaneWords then mask else w) :=
    List.map_congr_left fun w _ => cleanWord_eq_ite w
  have hne : (splitSp s).map cleanWord ≠ [] := by
    simpa using splitSp_ne_nil s
  have hsp : ∀ w ∈ (splitSp s).map cleanWord, ' ' ∉ w := by
    intro w hw
    rcases List.mem_map.mp hw with ⟨v, hv, rfl⟩
    exact cleanWord_no_space (not_mem_of_mem_splitSp hv)
  rw [cleanChirp, splitSp_joinSp hne hsp, hmap]

/-- C2 counterexample: the input "Hello" is accepted (length 5), the code's
cleaning returns it unchanged, but the reference function as worded by the
spec lower-cases it to "hello". -/
theorem c2_counterexample :
    goLen "Hello".toList ≤ 140 ∧
    cleanChirp "Hello".toList ≠ specCleanLiteral "Hello".toList := by
  constructor
  · decide
  · decide

/-- C2 amended: for every accepted input, the cleaning transform equals the
reference function that splits on single spaces, masks each token whose
lower-casing exactly matches a denylist word, keeps every other token in its
original case, and rejoins with single spaces. -/
theorem c2_cleaning_matches_reference (s : GoStr) (_h : goLen s ≤ 140) :
    cleanChirp s = specCleanCompareLower s := by
  rw [cleanChirp, specCleanCompareLower, ← splitSp_eq_splitOn,
    ← joinSp_eq_intercalate]
  exact congrArg joinSp (List.map_congr_left fun w _ => cleanWord_eq_ite w)

theorem c2_witness :
    goLen "Hello KERFUFFLE world".toList ≤ 140 ∧
    cleanChirp "Hello KERFUFFLE world".toList =
      specCleanCompareLower "Hello KERFUFFLE world".toList :=
  ⟨by decide, c2_cleaning_matches_reference _ (by decide)⟩

/-- C3: a POST whose parsed body exceeds 140 bytes is answered 400 with the
"Chirp is too long" error by both the chirp-creation and the validation
handler, whatever the database would do, and the stored chirps are
unchanged. -/
theorem c3_over_length_rejected (req : ChirpCreateReq) (dbOk : Bool)
    (chirps : List GoStr) (h : 140 < goLen req.body) :
    createChirpHandler true true (some req) dbOk chirps =
      (⟨400, .errJson "Chirp is too long".toList⟩, chirps) ∧
    validateChirpHandler true true (some req.body) =
      ⟨400, .errJson "Chirp is too long".toList⟩ := by
  constructor
  · simp [createChirpHandler, h]
  · simp [validateChirpHandler, h]

set_option maxRecDepth 8192 in
theorem c3_witness :
    140 < goLen (List.replicate 141 'a') ∧
    createChirpHandler true true (some ⟨List.replicate 141 'a', 7⟩) true [] =
      (⟨400, RespBody.errJson "Chirp is too long".toList⟩, []) :=
  ⟨by decide,
    (c3_over_length_rejected ⟨List.replicate 141 'a', 7⟩ true [] (by decide)).1⟩

/-- C4: on an accepted input none of whose space-delimited tokens
case-insensitively equals a denylist word, the cleaning transform returns
the input unchanged. -/
theorem c4_clean_is_identity (s : GoStr) (_h140 : goLen s ≤ 140)
    (hclean : ∀ w ∈ splitSp s, lowerStr w ∉ profaneWords) :
    cleanChirp s = s := by
  have h1 : (splitSp s).map cleanWord = (splitSp s).map id :=
    List.map_congr_left fun w hw => by
      rw [cleanWord_eq_ite, if_neg (hclean w hw), id]
  rw [cleanChirp, h1, List.map_id, joinSp_splitSp]

theorem c4_witness :
    goLen "Hello there world".toList ≤ 140 ∧
    cleanChirp "Hello there world".toList = "Hello there world".toList :=
  ⟨by decide, c4_clean_is_identity _ (by decide) (by decide)⟩

/-- C5: on every input accepted by the length check the cleaned output is
still at most 140 bytes, so every persisted chirp body is within the
bound. -/
theorem c5_cleaned_length_within_bound (s : GoStr) (h : goLen s ≤ 140) :
    goLen (cleanChirp s) ≤ 140 :=
  le_trans (goLen_cleanChirp_le s) h

theorem c5_witness :
    goLen "KERFUFFLE and more".toList ≤ 140 ∧
    goLen (cleanChirp "KERFUFFLE and more".toList) ≤ 140 :=
  ⟨by decide, c5_cleaned_length_within_bound _ (by decide)⟩

/-- C6: a POST to the reset endpoint with the platform not equal to "dev"
answers 403 and leaves the entire server state, hit counter and users
included, unchanged, whatever the database would do. -/
theorem c6_reset_forbidden_outside_dev (platform : GoStr) (deleteOk : Bool)
    (s : ServerState) (h : platform ≠ "dev".toList) :
    resetHandler platform true deleteOk s =
      (⟨403, .errJson "Reset endpoint only available in dev mode".toList⟩,
        s) := by
  simp only [resetHandler]
  rw [if_neg (by simp), if_pos h]

theorem c6_witness :
    "prod".toList ≠ "dev".toList ∧
    resetHandler "prod".toList true true ⟨5, ["a@b.c".toList]⟩ =
      (⟨403,
          RespBody.errJson "Reset endpoint only available in dev mode".toList⟩,
        ⟨5, ["a@b.c".toList]⟩) :=
  ⟨by decide, c6_reset_forbidden_outside_dev _ true _ (by decide)⟩

/-- C7: a POST to the reset endpoint in dev mode with a successful delete
answers 200, zeroes the hit counter and empties the users table. -/
theorem c7_reset_dev_success (s : ServerState) :
    resetHandler "dev".toList true true s = (⟨200, .empty⟩, ⟨0, []⟩) := by
  simp [resetHandler]

/-- C8 counterexample: with the body read failing, the chirp-creation
handler answers 500 although the JSON was well formed, the body short, and
the database call never failed, so the two stated error classes are not
exhaustive. -/
theorem c8_counterexample : ¬errorTwoClassesClaim := by
  intro h
  have h1 := h.1 true false (some ⟨"hi".toList, 0⟩) true [] (by decide)
  revert h1
  decide

/-- C8 amended: for both creation handlers every response is a 405 with an
empty body on a non-POST method, a 201 success, a 400 with a JSON error body
caused by malformed JSON or an over-length chirp body, or a 500 with a JSON
error message caused by a body-read or database failure. -/
theorem c8_error_classification (isPost readOk : Bool)
    (parsedC : Option ChirpCreateReq) (parsedU : Option GoStr) (dbOk : Bool)
    (chirps users : List GoStr) :
    ((isPost = false ∧
        (createChirpHandler isPost readOk parsedC dbOk chirps).1 =
          ⟨405, .empty⟩) ∨
      (createChirpHandler isPost readOk parsedC dbOk chirps).1.status = 201 ∨
      ((createChirpHandler isPost readOk parsedC dbOk chirps).1.status = 400 ∧
        (createChirpHandler isPost readOk parsedC dbOk chirps).1.body.isErr =
          true ∧
        (parsedC = none ∨ chirpTooLong parsedC = true)) ∨
      ((createChirpHandler isPost readOk parsedC dbOk chirps).1.status = 500 ∧
        (createChirpHandler isPost readOk parsedC dbOk chirps).1.body.isErr =
          true ∧
        (readOk = false ∨ dbOk = false))) ∧
    ((isPost = false ∧
        (createUserHandler isPost readOk parsedU dbOk users).1 =
          ⟨405, .empty⟩) ∨
      (createUserHandler isPost readOk parsedU dbOk users).1.status = 201 ∨
      ((createUserHandler isPost readOk parsedU dbOk users).1.status = 400 ∧
        (createUserHandler isPost readOk parsedU dbOk users).1.body.isErr =
          true ∧
        parsedU = none) ∨
      ((createUserHandler isPost readOk parsedU dbOk users).1.status = 500 ∧
        (createUserHandler isPost readOk parsedU dbOk users).1.body.isErr =
          true ∧
        (readOk = false ∨ dbOk = false))) := by
  constructor
  · cases isPost <;> cases readOk <;> cases parsedC <;> cases dbOk <;>
      simp [createChirpHandler, chirpTooLong, RespBody.isErr]
    all_goals
      rename_i req
      by_cases hl : 140 < goLen req.body <;>
        simp [createChirpHandler, chirpTooLong, RespBody.isErr, hl]
  · cases isPost <;> cases readOk <;> cases parsedU <;> cases dbOk <;>
      simp [createUserHandler, RespBody.isErr]

/-- C9 counterexample: the counter is an int32, so one atomic Add(1) at the
top of its range wraps to -2^31 and the final counter is not c + n there. -/
theorem c9_counterexample :
    runSteps 2147483647 [MWStep.inc] = -2147483648 ∧
    (2147483647 : Int) + ((1 : Nat) : Int) ≠ -2147483648 := by
  constructor
  · decide
  · decide

/-- C9 amended: each static-file request performs one atomic int32 increment
of the hit counter, so every interleaving of n such requests starting from
an in-range counter value c ends with the counter at c + n reduced to the
int32 range by two's-complement wrap-around: no increment is lost under any
interleaving of the atomic increments. -/
theorem c9_no_lost_increments_mod32 (sched : List MWStep) (c : Int) (n : Nat)
    (hc : wrap32 c = c) (h : sched.length = n) :
    runSteps c sched = wrap32 (c + n) := by
  have hrun := runSteps_eq_wrap sched c
  rw [hc, h] at hrun
  exact hrun

theorem c9_witness :
    wrap32 5 = 5 ∧
    runSteps 5 [MWStep.inc, MWStep.inc, MWStep.inc] =
      wrap32 (5 + ((3 : Nat) : Int)) :=
  ⟨by decide, c9_no_lost_increments_mod32 _ 5 3 (by decide) rfl⟩

/-- C10: a POST to the reset endpoint in dev mode with a failing delete
answers 500 with the counter nevertheless already stored to zero and the
users table unchanged: the dev-mode reset is not atomic on failure. -/
theorem c10_reset_counter_zeroed_on_failed_delete (s : ServerState) :
    resetHandler "dev".toList true false s =
      (⟨500, .errJson "Failed to delete users".toList⟩, ⟨0, s.users⟩) := by
  simp [resetHandler]
